import Mathlib

/-!
Verification development for the clawio server.

This file shallowly embeds the parts of the code base that the checked
properties talk about:

* the error-code taxonomy (`root` package constants),
* the panic-recovering HTTP wrapper (`server/server.go`, `handler`),
* the per-request correlation-id plumbing (`handler`, `keys.SetLog`),
* the token-issuance endpoint (`pkg/auth`, `token`),
* the driver-construction dispatch (`cmd/clawiod/main.go`),
* the checksum verification contract and the chunked-upload assembler
  (modelled from the spec; their code is not part of this tree),
* the logging helpers `SanitizeURL` and `RedactString` (`helpers`).

Go strings manipulated byte-wise are modelled as lists of naturals
(byte values); machine integers that never overflow in the modelled
paths are naturals.
-/

/-! ### Error code taxonomy (`root` package)

The `root` package declares the error codes with `iota`, starting at
`CodeInvalidToken` and ending at `CodeInternal`. -/

/-- The `Code` enumeration of the `root` package, one constructor per
`Code...` constant, in source order. -/
inductive Code where
  | invalidToken
  | unauthenticated
  | badAuthenticationData
  | badInputData
  | notFound
  | badChecksum
  | tooBig
  | userNotFound
  | internal
deriving DecidableEq, Repr

/-- The numeric value assigned by `iota` in the source declaration
order. -/
def Code.val : Code → Nat
  | .invalidToken => 0
  | .unauthenticated => 1
  | .badAuthenticationData => 2
  | .badInputData => 3
  | .notFound => 4
  | .badChecksum => 5
  | .tooBig => 6
  | .userNotFound => 7
  | .internal => 8

/-- All codes, in declaration order. -/
def Code.all : List Code :=
  [.invalidToken, .unauthenticated, .badAuthenticationData, .badInputData,
   .notFound, .badChecksum, .tooBig, .userNotFound, .internal]

/-! ### Panic-recovering wrapper (`server/server.go`, `Server.handler`)

The wrapper runs the router inside a deferred `recover`.  A response
writer is modelled as the sequence of write events performed on it; the
inner handler either terminates normally (having performed its own
writes) or panics after some writes. -/

/-- One write performed on the HTTP response writer. -/
inductive RespEvent where
  | writeHeader (status : Nat)
  | writeBody (body : String)
deriving DecidableEq, Repr

/-- A recovered panic value, per the type switch in the deferred
function: a string, an error, or anything else (printed). -/
inductive PanicValue where
  | strVal (s : String)
  | errVal (msg : String)
  | otherVal (printed : String)
deriving DecidableEq, Repr

/-- What the inner router does with a request: either it returns
normally after `writes`, or it panics with a value after `writes`. -/
inductive InnerOutcome where
  | normal (writes : List RespEvent)
  | panicked (writes : List RespEvent) (value : PanicValue)
deriving DecidableEq, Repr

/-- The `switch t := r.(type)` conversion of a recovered panic value to
an `error` (its message), lines 106–113 of `server.go`. -/
def recoveredError : PanicValue → String
  | .strVal s => s
  | .errVal m => m
  | .otherVal p => p

/-- Model of `Server.handler`: runs the router and, in the deferred function,
recovers a panic; on recovery it writes status 500 and the correlation
id `tid` as body; otherwise the deferred function performs no writes.
The result is the full event sequence seen by the response writer. -/
def serverHandler (tid : String) (inner : InnerOutcome) : List RespEvent :=
  match inner with
  | .normal ws => ws
  | .panicked ws _ => ws ++ [.writeHeader 500, .writeBody tid]

/-! ### Per-request correlation id (`Server.handler`, `keys.SetLog`)

Modelled from the spec: `uuid.NewV4` and the `keys` package are
external collaborators whose code is not in this tree.  The spec
requires a per-request context never persisted or shared across
operations.  The uuid generator is modelled as a fresh supply (a
counter): each call returns a value never returned before.  `keys.SetLog`
is modelled as a store keyed by the request. -/

/-- Server-side state for correlation ids: the fresh-supply counter and
the request-keyed logger store (request key ↦ correlation id carried by
its logger). -/
structure SrvState where
  nextTid : Nat
  requestLog : List (Nat × Nat)
deriving DecidableEq, Repr

/-- Lookup in a request-keyed store. -/
def lookupReq : List (Nat × Nat) → Nat → Option Nat
  | [], _ => none
  | e :: rest, k => if e.1 = k then some e.2 else lookupReq rest k

/-- The start of `Server.handler` for one request: draw a fresh
correlation id, attach the derived logger to this request, return the
new state and the id used for this request. -/
def handleStart (st : SrvState) (req : Nat) : SrvState × Nat :=
  (⟨st.nextTid + 1, (req, st.nextTid) :: st.requestLog⟩, st.nextTid)

/-- The correlation ids assigned to a sequence of requests processed in
order from state `st`. -/
def assignTids (st : SrvState) : List Nat → List Nat
  | [] => []
  | r :: rs =>
    let p := handleStart st r
    p.2 :: assignTids p.1 rs

/-! ### Token-issuance endpoint (`pkg/auth`, `auth.token`)

`token` authenticates the request; on failure it answers 400 Bad
Request for every kind of failure.  On success it walks all registered
storages and, for each one whose capabilities include
`CreateUserHomeDir`, creates the acting identity's home directory; the
first failure answers 500 and stops.  Only then is the token created
(500 on failure) and sent with status 201. -/

/-- The three authentication failure kinds the core distinguishes for a
failed credential resolution (spec §6/§7). -/
inductive AuthKind where
  | invalidToken
  | unauthenticated
  | badAuthenticationData
deriving DecidableEq, Repr

/-- A registered storage as the token endpoint sees it: an identifier
(its mount prefix in the source), whether its capability set includes
`CreateUserHomeDir`, and the outcome that `CreateUserHomeDir` would
produce for the acting identity (`some msg` = failure). -/
structure Storage where
  sid : String
  canCreateHome : Bool
  createHomeErr : Option String
deriving DecidableEq, Repr

/-- Outcome of the token endpoint: HTTP status written, the issued
token if any, and the storages (by identifier, in order) whose home
directory creation ran to completion. -/
structure TokenOutcome where
  status : Nat
  token : Option String
  created : List String
deriving DecidableEq, Repr

/-- The storage loop of `auth.token`: for each storage with the
`CreateUserHomeDir` capability, create the home directory; stop at the
first failure, carrying the identifiers already created. -/
def createHomes (acc : List String) : List Storage → Except (List String × String) (List String)
  | [] => .ok acc
  | s :: rest =>
    if s.canCreateHome then
      match s.createHomeErr with
      | some e => .error (acc, e)
      | none => createHomes (acc ++ [s.sid]) rest
    else createHomes acc rest

/-- Model of `auth.token`: the authentication result, the registered storages
and the token-creation outcome determine the response.  JSON marshal of
the one-entry string map cannot fail and is folded into the success
branch. -/
def tokenHandler (auth : Except AuthKind String) (storages : List Storage)
    (mkToken : Except String String) : TokenOutcome :=
  match auth with
  | .error _ => { status := 400, token := none, created := [] }
  | .ok _ =>
    match createHomes [] storages with
    | .error p => { status := 500, token := none, created := p.1 }
    | .ok acc =>
      match mkToken with
      | .error _ => { status := 500, token := none, created := acc }
      | .ok t => { status := 201, token := some t, created := acc }

/-! ### Driver construction (`cmd/clawiod/main.go`)

`getDataDriver` and `getMetaDataDriver` dispatch on the configured
driver name; an unknown name yields a nil driver and a configuration
error.  The concrete constructors and `getLogger` are collaborators and
enter the model as `Except` parameters. -/

/-- Model of `getDataDriver`: dispatch on `config.GetDataDriver()`.  `loggerRes`
models `getLogger`, `fsNew` models `fsdatadriver.New` applied to its
configuration, `mdRes` models `getMetaDataDriver` and `ocfsNew` models
`ocfsdatadriver.New`. -/
def getDataDriver (name : String) (loggerRes : Except String Unit)
    (fsNew : Except String α) (mdRes : Except String Unit)
    (ocfsNew : Except String α) : Except String α :=
  if name = "fsdatadriver" then
    match loggerRes with
    | .error e => .error e
    | .ok _ => fsNew
  else if name = "ocfsdatadriver" then
    match loggerRes with
    | .error e => .error e
    | .ok _ =>
      match mdRes with
      | .error e => .error e
      | .ok _ => ocfsNew
  else .error "configured datadriver does not exist"

/-- Model of `getMetaDataDriver`: dispatch on `config.GetMetaDataDriver()`, with
`fsmNew` for `fsmdatadriver.New` and `ocfsmNew` for
`ocfsmdatadriver.New`. -/
def getMetaDataDriver (name : String) (loggerRes : Except String Unit)
    (fsmNew : Except String β) (ocfsmNew : Except String β) : Except String β :=
  if name = "fsmdatadriver" then
    match loggerRes with
    | .error e => .error e
    | .ok _ => fsmNew
  else if name = "ocfsmdatadriver" then
    match loggerRes with
    | .error e => .error e
    | .ok _ => ocfsmNew
  else .error "configured metadata driver does not exist"

/-! ### Checksum verification

Modelled from the spec: no checksum code is part of this tree.  Spec §3:
a `Checksum` is an algorithm identifier plus a hex digest; equality
requires both to match and a "none" checksum never matches anything.
Spec §4.1: `verify(expected, actual)` is a pure equality check per that
invariant. -/

/-- A checksum: algorithm identifier and hex digest (spec §3). -/
structure Checksum where
  alg : String
  digest : String
deriving DecidableEq, Repr

/-- Modelled from the spec: `verify(expected, actual)` of the Checksum
Codec (§4.1), the pure equality check under the §3 invariant — both
algorithm and digest must match and a "none" checksum matches
nothing. -/
def verifyChecksum (expected actual : Checksum) : Bool :=
  expected.alg == actual.alg && expected.digest == actual.digest &&
    expected.alg != "none" && actual.alg != "none"

/-! ### Chunk Assembler

Modelled from the spec: the chunked-upload assembly code (the oc web
service behind `getOCWebService` and its chunks folder) is not part of
this tree.  Spec §3/§4.3: a ChunkSet tracks a transfer id, destination
path, declared total and received slots; chunks accumulate in private
staging; the set is complete iff every index in `[0, total)` has been
received; only on completeness does Finalizing concatenate the slots in
index order and publish at the destination path, and the staging entry
is released.  Readers (`downloadFile`, `examine`) see only the
published namespace. -/

/-- A byte string. -/
abbrev Bytes := List Nat

/-- Lookup in a string-keyed association list. -/
def alookup : List (String × α) → String → Option α
  | [], _ => none
  | e :: rest, k => if e.1 = k then some e.2 else alookup rest k

/-- Remove a key from a string-keyed association list. -/
def aremove : List (String × α) → String → List (String × α)
  | [], _ => []
  | e :: rest, k => if e.1 = k then aremove rest k else e :: aremove rest k

/-- Insert-or-replace in a string-keyed association list. -/
def aset : List (String × α) → String → α → List (String × α)
  | [], k, v => [(k, v)]
  | e :: rest, k, v => if e.1 = k then (k, v) :: rest else e :: aset rest k v

/-- One in-flight ChunkSet: destination path, declared total, and the
staged slots (index ↦ bytes, last write to an index wins). -/
structure ChunkSet where
  destPath : String
  total : Nat
  slots : List (Nat × Bytes)
deriving DecidableEq, Repr

/-- Lookup of a staged slot by index. -/
def slotGet : List (Nat × Bytes) → Nat → Option Bytes
  | [], _ => none
  | e :: rest, i => if e.1 = i then some e.2 else slotGet rest i

/-- Writing a slot: replace the slot of index `i` or add it. -/
def slotSet : List (Nat × Bytes) → Nat → Bytes → List (Nat × Bytes)
  | [], i, b => [(i, b)]
  | e :: rest, i, b => if e.1 = i then (i, b) :: rest else e :: slotSet rest i b

/-- Completeness: every index in `[0, total)` has a staged slot. -/
def ChunkSet.complete (cs : ChunkSet) : Bool :=
  (List.range cs.total).all fun i => (slotGet cs.slots i).isSome

/-- Finalizing reads staged slots strictly in index order and
concatenates them. -/
def ChunkSet.assemble (cs : ChunkSet) : Bytes :=
  (List.range cs.total).flatMap fun i => (slotGet cs.slots i).getD []

/-- Assembler state: in-flight ChunkSets keyed by transfer id, and the
published namespace (path ↦ published bytes). -/
structure AssemblerState where
  inflight : List (String × ChunkSet)
  published : List (String × Bytes)
deriving DecidableEq, Repr

/-- Delivery of one chunk for transfer `t` to destination `dest` with
declared total `total`: stage the slot (creating the ChunkSet on first
arrival); the instant the set is complete, finalize — publish the
assembled bytes at the destination and release staging — otherwise the
namespace is untouched. -/
def putChunk (st : AssemblerState) (t dest : String) (total idx : Nat)
    (b : Bytes) : AssemblerState :=
  let cs :=
    match alookup st.inflight t with
    | some cs0 => { cs0 with slots := slotSet cs0.slots idx b }
    | none => { destPath := dest, total := total, slots := [(idx, b)] }
  if cs.complete then
    { inflight := aremove st.inflight t,
      published := aset st.published cs.destPath cs.assemble }
  else
    { inflight := aset st.inflight t cs, published := st.published }

/-- Reader `downloadFile` over the published namespace: the published bytes,
or `none` (NotFound). -/
def downloadFile (st : AssemblerState) (path : String) : Option Bytes :=
  alookup st.published path

/-- Reader `examine` over the published namespace: the FileInfo size snapshot,
or `none` (NotFound). -/
def examineFile (st : AssemblerState) (path : String) : Option Nat :=
  (alookup st.published path).map List.length

/-- A whole delivery sequence for one transfer (pairs of chunk index
and bytes), applied in order. -/
def deliverAll (st : AssemblerState) (t dest : String) (total : Nat)
    (ds : List (Nat × Bytes)) : AssemblerState :=
  ds.foldl (fun s d => putChunk s t dest total d.1 d.2) st

/-! ### `helpers.SanitizeURL`

`SanitizeURL` copies the URL value, parses its query, and — if a
non-empty `access_token` parameter is present — replaces its value with
`REDACTED` and re-encodes the query before rendering; a nil URL renders
to the empty string.  The `net/url` collaborator functions `Query`
(aka `ParseQuery`), `Values.Get`, `Values.Set`, `Values.Encode` and
`URL.String` are modelled below: `ParseQuery` splits the raw query on
separators and unescapes keys and values (skipping empty keys and
invalid escapes), `Encode` emits the keys in sorted order, each with
its values in arrival order, percent-escaped. -/

/-- Parsed query values: key ↦ values in arrival order, keys distinct
(the `url.Values` map). -/
abbrev QVals := List (String × List String)

/-- Value of a hex digit, if any. -/
def hexVal (c : Char) : Option Nat :=
  if c.toNat ≥ 48 && c.toNat ≤ 57 then some (c.toNat - 48)
  else if c.toNat ≥ 97 && c.toNat ≤ 102 then some (c.toNat - 87)
  else if c.toNat ≥ 65 && c.toNat ≤ 70 then some (c.toNat - 55)
  else none

/-- Query unescaping: `+` becomes a space, `%XY` becomes the byte it
denotes; an invalid escape makes the whole unescape fail. -/
def unescapeChars : List Char → Option (List Char)
  | [] => some []
  | '%' :: h1 :: h2 :: rest =>
    match hexVal h1, hexVal h2, unescapeChars rest with
    | some d1, some d2, some tail => some (Char.ofNat (16 * d1 + d2) :: tail)
    | _, _, _ => none
  | '%' :: _ => none
  | '+' :: rest => (unescapeChars rest).map fun tail => ' ' :: tail
  | c :: rest => (unescapeChars rest).map fun tail => c :: tail

/-- Split a segment at its first `=`: the raw key and the raw value
(empty when no `=` occurs). -/
def splitEq : List Char → List Char × List Char
  | [] => ([], [])
  | '=' :: rest => ([], rest)
  | c :: rest =>
    let p := splitEq rest
    (c :: p.1, p.2)

/-- Split a raw query on the separators `&` and `;`. -/
def splitSep : List Char → List (List Char)
  | [] => [[]]
  | c :: rest =>
    let r := splitSep rest
    if c = '&' || c = ';' then [] :: r
    else
      match r with
      | [] => [[c]]
      | seg :: segs => (c :: seg) :: segs

/-- Add one parsed pair to the values map: append to the key's value
list, or create the key at the end. -/
def addPair : QVals → String → String → QVals
  | [], k, v => [(k, [v])]
  | e :: rest, k, v =>
    if e.1 = k then (e.1, e.2 ++ [v]) :: rest else e :: addPair rest k v

/-- Parse one query segment into the values map: an empty raw key skips
the segment, as does an invalid escape in key or value. -/
def parsePair (vs : QVals) (seg : List Char) : QVals :=
  let p := splitEq seg
  if p.1 = [] then vs
  else
    match unescapeChars p.1, unescapeChars p.2 with
    | some k, some v => addPair vs (String.mk k) (String.mk v)
    | _, _ => vs

/-- Model of `url.ParseQuery` (what `URL.Query()` returns). -/
def parseQuery (s : String) : QVals :=
  (splitSep s.toList).foldl parsePair []

/-- Model of `Values.Get`: first value of the key, or the empty string. -/
def vGet : QVals → String → String
  | [], _ => ""
  | e :: rest, k =>
    if e.1 = k then
      match e.2 with
      | [] => ""
      | v :: _ => v
    else vGet rest k

/-- Model of `Values.Set`: the key now maps to exactly the one value. -/
def vSet : QVals → String → String → QVals
  | [], k, v => [(k, [v])]
  | e :: rest, k, v =>
    if e.1 = k then (k, [v]) :: rest else e :: vSet rest k v

/-- The hex digit used by query escaping. -/
def hexDigit (n : Nat) : Char :=
  if n < 10 then Char.ofNat (48 + n) else Char.ofNat (55 + n)

/-- Characters that query escaping leaves alone. -/
def plainQueryChar (c : Char) : Bool :=
  c.isAlphanum || c = '-' || c = '_' || c = '.' || c = '~'

/-- Escape one character for a query component: space becomes `+`,
unreserved characters stay, everything else is percent-escaped. -/
def escapeChar (c : Char) : List Char :=
  if c = ' ' then ['+']
  else if plainQueryChar c then [c]
  else ['%', hexDigit (c.toNat / 16), hexDigit (c.toNat % 16)]

/-- Query escaping of a whole component. -/
def escapeQ (s : String) : String :=
  String.mk (s.toList.flatMap escapeChar)

/-- Insert an entry into a key-sorted values list, after every entry
whose key is not greater. -/
def insertByKey (e : String × List String) : QVals → QVals
  | [] => [e]
  | f :: rest => if f.1 ≤ e.1 then f :: insertByKey e rest else e :: f :: rest

/-- Sort the values map by key. -/
def sortByKey (vs : QVals) : QVals :=
  vs.foldr insertByKey []

/-- Model of `Values.Encode`: keys in sorted order, each key emitted once per
value in value order, key and value escaped. -/
def encodeVals (vs : QVals) : String :=
  String.intercalate "&"
    ((sortByKey vs).flatMap fun e => e.2.map fun v => escapeQ e.1 ++ "=" ++ escapeQ v)

/-- The URL value, with the components `SanitizeURL` touches or
renders. -/
structure URL where
  scheme : String
  host : String
  path : String
  rawQuery : String
deriving DecidableEq, Repr

/-- Model of `URL.String`: render the URL, appending `?rawQuery` when the raw
query is non-empty. -/
def urlString (u : URL) : String :=
  u.scheme ++ "://" ++ u.host ++ u.path ++
    (if 0 < u.rawQuery.length then "?" ++ u.rawQuery else "")

/-- Model of `helpers.SanitizeURL`.  A Go `*url.URL` is modelled as
`Option URL`; the result pairs the rendered string with the pointee as
the caller observes it after the call (the function mutates only its
local copy). -/
def sanitizeURL : Option URL → String × Option URL
  | none => ("", none)
  | some u =>
    let params := parseQuery u.rawQuery
    if 0 < (vGet params "access_token").length then
      let c := { u with rawQuery := encodeVals (vSet params "access_token" "REDACTED") }
      (urlString c, some u)
    else
      (urlString u, some u)

/-- The URL value as `SanitizeURL` rewrites it on its local copy: the
query re-encoded with the `access_token` value replaced by
`REDACTED`. -/
def redactedURL (u : URL) : URL :=
  { u with rawQuery := encodeVals (vSet (parseQuery u.rawQuery) "access_token" "REDACTED") }

/-- Two parsed queries that differ at most in the values stored under
`access_token`: same keys in the same arrangement, identical value
lists for every other key. -/
def queryRel : QVals → QVals → Bool
  | [], [] => true
  | e1 :: r1, e2 :: r2 =>
    e1.1 == e2.1 && (e1.1 == "access_token" || e1.2 == e2.2) && queryRel r1 r2
  | _, _ => false

/-! ### `helpers.RedactString`

Go strings are byte slices; `len` and slicing are byte-wise, so the
model works on byte lists.  88 is the byte of `X`. -/

/-- Model of `helpers.RedactString` on the byte representation of the input. -/
def redactString (v : Bytes) : Bytes :=
  if v.length = 0 then []
  else if v.length = 1 then [88]
  else List.replicate 10 88 ++ v.drop (v.length / 2)

/-! ## Theorems -/

/-! ### Helper lemmas for the token endpoint -/

/-- The storage loop only ever extends its accumulator. -/
theorem createHomes_sub (ss : List Storage) (acc acc2 : List String)
    (h : createHomes acc ss = .ok acc2) : acc ⊆ acc2 := by
  induction ss generalizing acc with
  | nil =>
    simp only [createHomes, Except.ok.injEq] at h
    exact h ▸ List.Subset.refl acc
  | cons s rest ih =>
    simp only [createHomes] at h
    by_cases hc : s.canCreateHome
    · rw [if_pos hc] at h
      cases he : s.createHomeErr with
      | some e => rw [he] at h; cases h
      | none =>
        rw [he] at h
        exact fun x hx => ih (acc ++ [s.sid]) h (List.mem_append_left _ hx)
    · rw [if_neg hc] at h
      exact ih acc h

/-- A successful storage loop has created the home of every storage
with the capability. -/
theorem createHomes_ok_mem (ss : List Storage) (acc acc2 : List String)
    (h : createHomes acc ss = .ok acc2) (s : Storage) (hs : s ∈ ss)
    (hc : s.canCreateHome = true) : s.sid ∈ acc2 := by
  induction ss generalizing acc with
  | nil => cases hs
  | cons s0 rest ih =>
    simp only [createHomes] at h
    rcases List.mem_cons.mp hs with heq | htail
    · subst heq
      rw [if_pos hc] at h
      cases he : s.createHomeErr with
      | some e => rw [he] at h; cases h
      | none =>
        rw [he] at h
        exact createHomes_sub rest _ _ h (List.mem_append_right _ (List.mem_singleton.mpr rfl))
    · by_cases hc0 : s0.canCreateHome
      · rw [if_pos hc0] at h
        cases he : s0.createHomeErr with
        | some e => rw [he] at h; cases h
        | none => rw [he] at h; exact ih _ h htail
      · rw [if_neg hc0] at h
        exact ih _ h htail

/-- If some storage with the capability fails to create the home, the
storage loop fails. -/
theorem createHomes_fails (ss : List Storage) (acc : List String)
    (s : Storage) (hs : s ∈ ss) (hc : s.canCreateHome = true)
    (he : s.createHomeErr.isSome = true) :
    ∃ p, createHomes acc ss = .error p := by
  induction ss generalizing acc with
  | nil => cases hs
  | cons s0 rest ih =>
    rcases List.mem_cons.mp hs with heq | htail
    · subst heq
      cases hee : s.createHomeErr with
      | none => rw [hee] at he; cases he
      | some e => exact ⟨(acc, e), by simp [createHomes, hc, hee]⟩
    · by_cases hc0 : s0.canCreateHome
      · cases hee : s0.createHomeErr with
        | some e => exact ⟨(acc, e), by simp [createHomes, hc0, hee]⟩
        | none =>
          obtain ⟨p, hp⟩ := ih (acc ++ [s0.sid]) htail
          exact ⟨p, by simp [createHomes, hc0, hee, hp]⟩
      · obtain ⟨p, hp⟩ := ih acc htail
        exact ⟨p, by simp [createHomes, hc0, hp]⟩

/-! ### Claim theorems: taxonomy, wrapper, token endpoint, dispatch -/

/-- C2: the error-code type defines exactly the nine kinds of the
taxonomy, in source order, with distinct stable values 0 through 8
(`InvalidToken = 0`, `Internal = 8`), and no other kinds. -/
theorem code_taxonomy_exact :
    Code.all.map Code.val = [0, 1, 2, 3, 4, 5, 6, 7, 8] ∧
    Code.all.length = 9 ∧
    (∀ c : Code, c ∈ Code.all) ∧
    (Code.all.map Code.val).Nodup ∧
    Code.val .invalidToken = 0 ∧ Code.val .internal = 8 :=
  ⟨rfl, rfl, fun c => by cases c <;> decide, by decide, rfl, rfl⟩

/-- C3: the wrapping handler recovers every panic of the inner handler
and then writes exactly status 500 followed by the request's
correlation id as body; when the inner handler does not panic the
wrapper writes nothing of its own.  `serverHandler` is total, so a
panic never escapes the request handler. -/
theorem handler_recovers_panic (tid : String) (ws : List RespEvent) (v : PanicValue) :
    serverHandler tid (.panicked ws v) = ws ++ [.writeHeader 500, .writeBody tid] ∧
    serverHandler tid (.normal ws) = ws :=
  ⟨rfl, rfl⟩

/-- C3 witness: the wrapper behaviour at a concrete panicking and a
concrete quiet request. -/
theorem handler_recovers_panic_witness :
    serverHandler "tid-1" (.panicked [.writeHeader 200] (.strVal "boom")) =
      [.writeHeader 200, .writeHeader 500, .writeBody "tid-1"] ∧
    serverHandler "tid-1" (.normal [.writeBody "ok"]) = [.writeBody "ok"] :=
  ⟨(handler_recovers_panic "tid-1" [.writeHeader 200] (.strVal "boom")).1,
   (handler_recovers_panic "tid-1" [.writeBody "ok"] (.strVal "boom")).2⟩

/-- C1 (amended): every failed credential resolution at the token
endpoint is answered with HTTP 400 Bad Request, whichever of the three
authentication kinds the failure is classified as; the response status
is the same for all kinds, and no token is issued and no home directory
is created. -/
theorem token_auth_failure_uniform_400 (k : AuthKind) (storages : List Storage)
    (mk : Except String String) :
    tokenHandler (.error k) storages mk = { status := 400, token := none, created := [] } :=
  rfl

/-- C1 witness: uniform 400 at concrete inputs. -/
theorem token_auth_failure_uniform_400_witness :
    tokenHandler (.error .badAuthenticationData)
        [⟨"home0", true, none⟩] (.ok "tok") =
      { status := 400, token := none, created := [] } :=
  token_auth_failure_uniform_400 .badAuthenticationData [⟨"home0", true, none⟩] (.ok "tok")

/-- C1 counterexample: two distinct authentication failure kinds yield
the same response status (400), so the status does not map 1:1 from the
failure kind at this endpoint. -/
theorem token_status_not_injective_on_kind :
    AuthKind.unauthenticated ≠ AuthKind.invalidToken ∧
    (tokenHandler (.error .unauthenticated) [] (.ok "t")).status =
      (tokenHandler (.error .invalidToken) [] (.ok "t")).status := by
  decide

/-- C4: on successful authentication, every registered storage whose
capability set includes home-directory auto-creation has the acting
identity's home directory created before any token is returned, and if
any such creation fails the endpoint answers 500 and issues no
token. -/
theorem token_creates_homes_before_issue (auth : Except AuthKind String)
    (storages : List Storage) (mk : Except String String) :
    ((tokenHandler auth storages mk).token.isSome = true →
      ∀ s, s ∈ storages → s.canCreateHome = true →
        s.sid ∈ (tokenHandler auth storages mk).created) ∧
    (∀ u s, auth = .ok u → s ∈ storages → s.canCreateHome = true →
      s.createHomeErr.isSome = true →
      (tokenHandler auth storages mk).status = 500 ∧
      (tokenHandler auth storages mk).token = none) := by
  constructor
  · intro htok s hs hc
    cases auth with
    | error k => simp [tokenHandler] at htok
    | ok u =>
      cases hch : createHomes [] storages with
      | error p => simp [tokenHandler, hch] at htok
      | ok acc =>
        cases mk with
        | error e => simp [tokenHandler, hch] at htok
        | ok t =>
          simp only [tokenHandler, hch]
          exact createHomes_ok_mem storages [] acc hch s hs hc
  · intro u s hauth hs hc he
    subst hauth
    obtain ⟨p, hp⟩ := createHomes_fails storages [] s hs hc he
    simp [tokenHandler, hp]

/-- C4 witness: a concrete failing home creation yields 500 and no
token. -/
theorem token_creates_homes_before_issue_witness :
    (tokenHandler (.ok "alice") [⟨"home0", true, some "disk full"⟩] (.ok "tok")).status = 500 ∧
    (tokenHandler (.ok "alice") [⟨"home0", true, some "disk full"⟩] (.ok "tok")).token = none :=
  (token_creates_homes_before_issue (.ok "alice") [⟨"home0", true, some "disk full"⟩]
      (.ok "tok")).2 "alice" ⟨"home0", true, some "disk full"⟩ rfl
    (List.mem_singleton.mpr rfl) rfl rfl

/-- C5: driver construction dispatches on the configured name; a name
matching no registered backend yields a configuration error (nil driver
plus non-nil error), and a concrete driver is only ever produced for a
matching name. -/
theorem driver_dispatch_rejects_unknown (nameD nameM : String)
    (lg : Except String Unit) (fsNew : Except String α) (md : Except String Unit)
    (ocfsNew : Except String α) (fsmNew : Except String β) (ocfsmNew : Except String β) :
    (nameD ≠ "fsdatadriver" → nameD ≠ "ocfsdatadriver" →
      getDataDriver nameD lg fsNew md ocfsNew =
        .error "configured datadriver does not exist") ∧
    (∀ d, getDataDriver nameD lg fsNew md ocfsNew = .ok d →
      nameD = "fsdatadriver" ∨ nameD = "ocfsdatadriver") ∧
    (nameM ≠ "fsmdatadriver" → nameM ≠ "ocfsmdatadriver" →
      getMetaDataDriver nameM lg fsmNew ocfsmNew =
        .error "configured metadata driver does not exist") ∧
    (∀ d, getMetaDataDriver nameM lg fsmNew ocfsmNew = .ok d →
      nameM = "fsmdatadriver" ∨ nameM = "ocfsmdatadriver") := by
  refine ⟨?_, ?_, ?_, ?_⟩
  · intro h1 h2
    simp [getDataDriver, h1, h2]
  · intro d h
    by_cases h1 : nameD = "fsdatadriver"
    · exact Or.inl h1
    · by_cases h2 : nameD = "ocfsdatadriver"
      · exact Or.inr h2
      · exfalso
        simp [getDataDriver, h1, h2] at h
  · intro h1 h2
    simp [getMetaDataDriver, h1, h2]
  · intro d h
    by_cases h1 : nameM = "fsmdatadriver"
    · exact Or.inl h1
    · by_cases h2 : nameM = "ocfsmdatadriver"
      · exact Or.inr h2
      · exfalso
        simp [getMetaDataDriver, h1, h2] at h

/-- C5 witness: concrete unknown driver names are rejected. -/
theorem driver_dispatch_rejects_unknown_witness :
    getDataDriver "s3datadriver" (.ok ()) (.ok ()) (.ok ()) (.ok ()) =
      (.error "configured datadriver does not exist" : Except String Unit) ∧
    getMetaDataDriver "mongomdatadriver" (.ok ()) (.ok ()) (.ok ()) =
      (.error "configured metadata driver does not exist" : Except String Unit) :=
  ⟨(driver_dispatch_rejects_unknown "s3datadriver" "mongomdatadriver" (.ok ())
      (.ok ()) (.ok ()) (.ok ()) (.ok ()) (.ok ())).1 (by decide) (by decide),
   (driver_dispatch_rejects_unknown "s3datadriver" "mongomdatadriver" (.ok ())
      (.ok ()) (.ok ()) (.ok ()) (.ok ()) (.ok ())).2.2.1 (by decide) (by decide)⟩

/-! ### C6: per-request correlation id -/

/-- The ids assigned to a run of requests are the consecutive fresh
values of the supply. -/
theorem assignTids_eq_range (st : SrvState) (reqs : List Nat) :
    assignTids st reqs = List.range' st.nextTid reqs.length := by
  induction reqs generalizing st with
  | nil => rfl
  | cons r rs ih => simp [assignTids, handleStart, List.range'_succ, ih]

/-- C6: one request's handling draws a fresh correlation id, attaches
the derived logger to exactly that request, and leaves the entry of
every other request untouched; across any run of requests the assigned
correlation ids are pairwise distinct, so an id is never reused by a
different request. -/
theorem correlation_id_per_request (st : SrvState) (r rr : Nat) (reqs : List Nat) :
    (handleStart st r).2 = st.nextTid ∧
    lookupReq (handleStart st r).1.requestLog r = some st.nextTid ∧
    (rr ≠ r → lookupReq (handleStart st r).1.requestLog rr = lookupReq st.requestLog rr) ∧
    (assignTids st reqs).Nodup := by
  refine ⟨rfl, by simp [handleStart, lookupReq], fun hne => ?_, ?_⟩
  · simp [handleStart, lookupReq, Ne.symm hne]
  · rw [assignTids_eq_range]
    exact List.nodup_range' st.nextTid reqs.length

/-- C6 witness: a concrete run. -/
theorem correlation_id_per_request_witness :
    lookupReq (handleStart ⟨0, []⟩ 5).1.requestLog 7 =
      lookupReq (SrvState.mk 0 []).requestLog 7 ∧
    (assignTids ⟨0, []⟩ [5, 7, 9]).Nodup :=
  ⟨(correlation_id_per_request ⟨0, []⟩ 5 7 [5, 7, 9]).2.2.1 (by decide),
   (correlation_id_per_request ⟨0, []⟩ 5 7 [5, 7, 9]).2.2.2⟩

/-! ### C7: chunked-upload completeness gating -/

/-- Insert-or-replace puts the value under its key. -/
theorem alookup_aset_self (l : List (String × α)) (k : String) (v : α) :
    alookup (aset l k v) k = some v := by
  induction l with
  | nil => simp [aset, alookup]
  | cons e rest ih =>
    by_cases h : e.1 = k
    · simp [aset, alookup, h]
    · simp [aset, alookup, h, ih]

/-- Writing one slot does not touch the others. -/
theorem slotGet_slotSet_ne (sl : List (Nat × Bytes)) (i j : Nat) (b : Bytes)
    (h : i ≠ j) : slotGet (slotSet sl i b) j = slotGet sl j := by
  induction sl with
  | nil => simp [slotSet, slotGet, h]
  | cons e rest ih =>
    by_cases he : e.1 = i
    · simp [slotSet, slotGet, he, h, ih]
    · simp only [slotSet, if_neg he, slotGet]
      by_cases hj : e.1 = j
      · simp [hj]
      · simp [hj, ih]

/-- A ChunkSet with a missing index below its total is not complete. -/
theorem complete_eq_false_of_missing (cs : ChunkSet) (j : Nat)
    (hj : j < cs.total) (hs : slotGet cs.slots j = none) :
    cs.complete = false := by
  cases hc : cs.complete with
  | false => rfl
  | true =>
    exfalso
    have hall := List.all_eq_true.mp hc j (List.mem_range.mpr hj)
    rw [hs] at hall
    cases hall

/-- One delivery of a chunk whose index is not the missing one keeps
the namespace untouched and keeps the transfer staged with the missing
index still absent. -/
theorem putChunk_incomplete_step (s : AssemblerState) (t dest : String)
    (total j idx : Nat) (b : Bytes) (hj : j < total) (hne : idx ≠ j)
    (hin : alookup s.inflight t = none ∨
      ∃ cs, alookup s.inflight t = some cs ∧ cs.total = total ∧
        slotGet cs.slots j = none) :
    (putChunk s t dest total idx b).published = s.published ∧
    (∃ cs, alookup (putChunk s t dest total idx b).inflight t = some cs ∧
      cs.total = total ∧ slotGet cs.slots j = none) := by
  rcases hin with hnone | ⟨cs0, hsome, htot, hslot⟩
  · have hslot2 : slotGet [(idx, b)] j = none := by simp [slotGet, hne]
    have hfalse : ChunkSet.complete ⟨dest, total, [(idx, b)]⟩ = false :=
      complete_eq_false_of_missing ⟨dest, total, [(idx, b)]⟩ j hj hslot2
    refine ⟨?_, ⟨dest, total, [(idx, b)]⟩, ?_, rfl, hslot2⟩
    · simp [putChunk, hnone, hfalse]
    · simp [putChunk, hnone, hfalse, alookup_aset_self]
  · have hslot2 : slotGet (slotSet cs0.slots idx b) j = none := by
      rw [slotGet_slotSet_ne cs0.slots idx j b hne]; exact hslot
    have hfalse : ChunkSet.complete { cs0 with slots := slotSet cs0.slots idx b } = false :=
      complete_eq_false_of_missing _ j (htot ▸ hj) hslot2
    refine ⟨?_, { cs0 with slots := slotSet cs0.slots idx b }, ?_, htot, hslot2⟩
    · simp [putChunk, hsome, hfalse]
    · simp [putChunk, hsome, hfalse, alookup_aset_self]

/-- A whole delivery sequence avoiding the missing index keeps the
namespace untouched. -/
theorem deliverAll_incomplete (t dest : String) (total j : Nat)
    (ds : List (Nat × Bytes)) (hj : j < total)
    (hmiss : ∀ d, d ∈ ds → d.1 ≠ j) (s : AssemblerState)
    (hin : alookup s.inflight t = none ∨
      ∃ cs, alookup s.inflight t = some cs ∧ cs.total = total ∧
        slotGet cs.slots j = none) :
    (deliverAll s t dest total ds).published = s.published := by
  induction ds generalizing s with
  | nil => rfl
  | cons d rest ih =>
    have hstep := putChunk_incomplete_step s t dest total j d.1 d.2 hj
      (hmiss d (List.mem_cons_self d rest)) hin
    have hrest := ih (fun e he => hmiss e (List.mem_cons_of_mem d he))
      (putChunk s t dest total d.1 d.2) (Or.inr hstep.2)
    calc (deliverAll s t dest total (d :: rest)).published
        = (deliverAll (putChunk s t dest total d.1 d.2) t dest total rest).published := rfl
      _ = (putChunk s t dest total d.1 d.2).published := hrest
      _ = s.published := hstep.1

/-- C7: as long as some chunk index in `[0, total)` of an in-flight
chunked upload has not been received, `downloadFile` and `examine` on
the destination path do not reflect the incomplete assembly — they
observe the previously published content (or NotFound if the path never
existed), and indeed the whole published namespace is unchanged. -/
theorem chunked_upload_completeness_gating (st : AssemblerState) (t dest : String)
    (total j : Nat) (ds : List (Nat × Bytes))
    (hfresh : alookup st.inflight t = none) (hj : j < total)
    (hmiss : ∀ d, d ∈ ds → d.1 ≠ j) :
    (deliverAll st t dest total ds).published = st.published ∧
    downloadFile (deliverAll st t dest total ds) dest = downloadFile st dest ∧
    examineFile (deliverAll st t dest total ds) dest = examineFile st dest := by
  have h := deliverAll_incomplete t dest total j ds hj hmiss st (Or.inl hfresh)
  exact ⟨h, by simp [downloadFile, h], by simp [examineFile, h]⟩

/-- C7 witness: total 3 with only chunks 0 and 1 delivered — the
destination stays NotFound. -/
theorem chunked_upload_completeness_gating_witness :
    (deliverAll ⟨[], []⟩ "t1" "/f" 3 [(0, [1]), (1, [2])]).published =
      (AssemblerState.mk [] []).published ∧
    downloadFile (deliverAll ⟨[], []⟩ "t1" "/f" 3 [(0, [1]), (1, [2])]) "/f" =
      downloadFile ⟨[], []⟩ "/f" ∧
    examineFile (deliverAll ⟨[], []⟩ "t1" "/f" 3 [(0, [1]), (1, [2])]) "/f" =
      examineFile ⟨[], []⟩ "/f" :=
  chunked_upload_completeness_gating ⟨[], []⟩ "t1" "/f" 3 2 [(0, [1]), (1, [2])]
    rfl (by decide) (by decide)

/-! ### C8: checksum verification -/

/-- C8: `verify` is a pure function that returns true exactly when both
algorithm identifiers and both digests agree and neither checksum is
the "none" sentinel; whenever either checksum has the "none" algorithm
it returns false — a "none" checksum matches nothing, not even another
"none" checksum. -/
theorem verify_checksum_spec (e a : Checksum) :
    (verifyChecksum e a = true ↔
      e.alg = a.alg ∧ e.digest = a.digest ∧ e.alg ≠ "none" ∧ a.alg ≠ "none") ∧
    (e.alg = "none" ∨ a.alg = "none" → verifyChecksum e a = false) := by
  constructor
  · simp [verifyChecksum, and_assoc]
  · intro h
    rcases h with h | h <;> simp [verifyChecksum, h]

/-- C8 witness: a matching strong checksum verifies; identical "none"
checksums do not. -/
theorem verify_checksum_spec_witness :
    verifyChecksum ⟨"md5", "abc"⟩ ⟨"md5", "abc"⟩ = true ∧
    verifyChecksum ⟨"none", "abc"⟩ ⟨"none", "abc"⟩ = false :=
  ⟨(verify_checksum_spec ⟨"md5", "abc"⟩ ⟨"md5", "abc"⟩).1.mpr
      ⟨rfl, rfl, by decide, by decide⟩,
   (verify_checksum_spec ⟨"none", "abc"⟩ ⟨"none", "abc"⟩).2 (Or.inl rfl)⟩

/-! ### C10: `RedactString` -/

/-- C10: `RedactString` returns the empty string for the empty input,
one `X` for a one-byte input, and for inputs of byte length `L ≥ 2`
exactly ten `X` bytes followed by the suffix starting at byte `L / 2`,
of total length `10 + (L - L / 2)`; the output depends only on the
input's length and its second half, never on the bytes of the hidden
first half. -/
theorem redact_string_spec (v v2 : Bytes) :
    redactString [] = [] ∧
    (v.length = 1 → redactString v = [88]) ∧
    (2 ≤ v.length →
      redactString v = List.replicate 10 88 ++ v.drop (v.length / 2) ∧
      (redactString v).length = 10 + (v.length - v.length / 2)) ∧
    (v.length = v2.length → v.drop (v.length / 2) = v2.drop (v2.length / 2) →
      redactString v = redactString v2) := by
  refine ⟨rfl, fun h1 => ?_, fun h2 => ?_, fun hlen hdrop => ?_⟩
  · simp [redactString, h1]
  · have h0 : v.length ≠ 0 := by omega
    have h1 : v.length ≠ 1 := by omega
    constructor
    · simp [redactString, h0, h1]
    · simp [redactString, h0, h1]
      omega
  · by_cases h0 : v.length = 0
    · have h02 : v2.length = 0 := by omega
      have hv : v = [] := List.length_eq_zero.mp h0
      have hv2 : v2 = [] := List.length_eq_zero.mp h02
      rw [hv, hv2]
    · by_cases h1 : v.length = 1
      · have h12 : v2.length = 1 := by omega
        simp [redactString, h1, h12]
      · have h02 : v2.length ≠ 0 := by omega
        have h12 : v2.length ≠ 1 := by omega
        simp only [redactString, if_neg h0, if_neg h1, if_neg h02, if_neg h12]
        rw [hdrop]

/-- C10 witness: the characterization at a concrete four-byte input. -/
theorem redact_string_spec_witness :
    redactString [1, 2, 3, 4] =
      List.replicate 10 88 ++ [1, 2, 3, 4].drop ([1, 2, 3, 4].length / 2) ∧
    (redactString [1, 2, 3, 4]).length = 10 + ([1, 2, 3, 4].length - [1, 2, 3, 4].length / 2) :=
  (redact_string_spec [1, 2, 3, 4] []).2.2.1 (by decide)

/-! ### C9: `SanitizeURL` -/

/-- Keys after adding a parsed pair: the old keys, plus the new key
when it was absent. -/
theorem mem_keys_addPair (vs : QVals) (k v a : String) :
    a ∈ (addPair vs k v).map Prod.fst ↔ a ∈ vs.map Prod.fst ∨ a = k := by
  induction vs with
  | nil => simp [addPair]
  | cons e rest ih =>
    by_cases hek : e.1 = k
    · simp [addPair, hek]
      tauto
    · simp only [addPair, if_neg hek, List.map_cons, List.mem_cons, ih]
      tauto

/-- Adding a parsed pair keeps the keys distinct. -/
theorem addPair_nodup (vs : QVals) (k v : String)
    (h : (vs.map Prod.fst).Nodup) : ((addPair vs k v).map Prod.fst).Nodup := by
  induction vs with
  | nil => simp [addPair]
  | cons e rest ih =>
    rw [List.map_cons, List.nodup_cons] at h
    by_cases hek : e.1 = k
    · simp only [addPair, hek, if_pos rfl, ite_true, eq_self_iff_true,
        List.map_cons, List.nodup_cons]
      exact ⟨hek ▸ h.1, h.2⟩
    · simp only [addPair, if_neg hek, List.map_cons, List.nodup_cons]
      refine ⟨?_, ih h.2⟩
      rw [mem_keys_addPair]
      rintro (hmem | heq)
      · exact h.1 hmem
      · exact hek heq

/-- Parsing one segment keeps the keys distinct. -/
theorem parsePair_nodup (vs : QVals) (seg : List Char)
    (h : (vs.map Prod.fst).Nodup) : ((parsePair vs seg).map Prod.fst).Nodup := by
  simp only [parsePair]
  split
  · exact h
  · split
    · exact addPair_nodup _ _ _ h
    · exact h

/-- The parsed query always has distinct keys. -/
theorem parseQuery_nodup (s : String) :
    ((parseQuery s).map Prod.fst).Nodup := by
  unfold parseQuery
  generalize splitSep s.toList = segs
  have h : ∀ (segs2 : List (List Char)) (vs : QVals),
      (vs.map Prod.fst).Nodup → ((segs2.foldl parsePair vs).map Prod.fst).Nodup := by
    intro segs2
    induction segs2 with
    | nil => exact fun vs h => h
    | cons seg rest ih => exact fun vs h => ih _ (parsePair_nodup vs seg h)
  exact h segs [] (by simp)

/-- Two related queries with no `access_token` key in the first are
equal. -/
theorem queryRel_eq_of_no_token (vs1 vs2 : QVals)
    (h : queryRel vs1 vs2 = true)
    (hno : ∀ e, e ∈ vs1 → e.1 ≠ "access_token") : vs1 = vs2 := by
  induction vs1 generalizing vs2 with
  | nil =>
    cases vs2 with
    | nil => rfl
    | cons e2 r2 => simp [queryRel] at h
  | cons e1 r1 ih =>
    cases vs2 with
    | nil => simp [queryRel] at h
    | cons e2 r2 =>
      simp only [queryRel, Bool.and_eq_true, Bool.or_eq_true, beq_iff_eq] at h
      obtain ⟨⟨hk, hv⟩, hr⟩ := h
      have hne := hno e1 (List.mem_cons_self e1 r1)
      rcases hv with hv | hv
      · exact absurd hv hne
      · have he : e1 = e2 := Prod.ext hk hv
        rw [he, ih r2 hr fun e hmem => hno e (List.mem_cons_of_mem e1 hmem)]

/-- Applying `Values.Set` of the redacted token produces identical values maps
on two queries that differ only in the token values, provided the first
has distinct keys. -/
theorem vSet_congr (vs1 vs2 : QVals) (v : String)
    (hn : (vs1.map Prod.fst).Nodup) (h : queryRel vs1 vs2 = true) :
    vSet vs1 "access_token" v = vSet vs2 "access_token" v := by
  induction vs1 generalizing vs2 with
  | nil =>
    cases vs2 with
    | nil => rfl
    | cons e2 r2 => simp [queryRel] at h
  | cons e1 r1 ih =>
    cases vs2 with
    | nil => simp [queryRel] at h
    | cons e2 r2 =>
      simp only [queryRel, Bool.and_eq_true, Bool.or_eq_true, beq_iff_eq] at h
      obtain ⟨⟨hk, hv⟩, hr⟩ := h
      rw [List.map_cons, List.nodup_cons] at hn
      by_cases ht : e1.1 = "access_token"
      · have ht2 : e2.1 = "access_token" := hk ▸ ht
        have hno : ∀ e, e ∈ r1 → e.1 ≠ "access_token" := by
          intro e hmem heq
          apply hn.1
          have hmem2 : e.1 ∈ r1.map Prod.fst := List.mem_map_of_mem Prod.fst hmem
          rw [heq] at hmem2
          rw [ht]
          exact hmem2
        rw [queryRel_eq_of_no_token r1 r2 hr hno]
        simp [vSet, ht, ht2]
      · have ht2 : e2.1 ≠ "access_token" := hk ▸ ht
        rcases hv with hv | hv
        · exact absurd hv ht
        · have he : e1 = e2 := Prod.ext hk hv
          simp only [vSet, if_neg ht, if_neg ht2]
          rw [he, ih r2 hn.2 hr]

/-- C9: `SanitizeURL` of a nil URL is the empty string; for a URL whose
query carries a non-empty `access_token` parameter the result is the
URL rendered with that parameter's value replaced by `REDACTED`; the
pointed-to URL is left unmodified (the function mutates only a copy);
and two URLs that agree outside the query and whose parsed queries
differ only in their (non-empty) `access_token` values sanitize to the
same string. -/
theorem sanitize_url_spec :
    sanitizeURL none = ("", none) ∧
    (∀ u : URL, 0 < (vGet (parseQuery u.rawQuery) "access_token").length →
      sanitizeURL (some u) = (urlString (redactedURL u), some u)) ∧
    (∀ ou : Option URL, (sanitizeURL ou).2 = ou) ∧
    (∀ u1 u2 : URL, u1.scheme = u2.scheme → u1.host = u2.host → u1.path = u2.path →
      queryRel (parseQuery u1.rawQuery) (parseQuery u2.rawQuery) = true →
      0 < (vGet (parseQuery u1.rawQuery) "access_token").length →
      0 < (vGet (parseQuery u2.rawQuery) "access_token").length →
      (sanitizeURL (some u1)).1 = (sanitizeURL (some u2)).1) := by
  refine ⟨rfl, fun u h => ?_, fun ou => ?_, fun u1 u2 hs hh hp hrel h1 h2 => ?_⟩
  · simp only [sanitizeURL]
    rw [if_pos h]
    rfl
  · cases ou with
    | none => rfl
    | some u =>
      simp only [sanitizeURL]
      split <;> rfl
  · simp only [sanitizeURL]
    rw [if_pos h1, if_pos h2]
    have hq : vSet (parseQuery u1.rawQuery) "access_token" "REDACTED" =
        vSet (parseQuery u2.rawQuery) "access_token" "REDACTED" :=
      vSet_congr _ _ _ (parseQuery_nodup u1.rawQuery) hrel
    simp [urlString, hs, hh, hp, hq]

/-- C9 witness: two concrete URLs differing only in the token value
sanitize identically. -/
theorem sanitize_url_spec_witness :
    (sanitizeURL (some ⟨"http", "h", "/p", "access_token=secret1&x=1"⟩)).1 =
      (sanitizeURL (some ⟨"http", "h", "/p", "access_token=tok9999&x=1"⟩)).1 :=
  sanitize_url_spec.2.2.2 ⟨"http", "h", "/p", "access_token=secret1&x=1"⟩
    ⟨"http", "h", "/p", "access_token=tok9999&x=1"⟩ rfl rfl rfl
    (by decide) (by decide) (by decide)
